import Mathlib

/-!
# Verification of the WPAC dashboard backend

Shallow embedding of the backend's normalization-and-metrics pipeline
(`backend/src/services/metrics.js`, `backend/src/parsers/ibtracs.js`,
`backend/src/parsers/bdeck.js`, `backend/src/routes/api.js`).

Conventions of the embedding:
* JS numbers are embedded as exact rationals `ℚ`; machine timestamps
  (`Date` objects / epoch milliseconds) as `ℤ`.
* `Number.prototype.toFixed(1)` followed by `Number(...)` is embedded as
  `round1` (round to nearest tenth, ties toward the larger value, which is
  the tie rule of `toFixed`).
* JS `Math.floor` division by a positive constant is `Int` division `/`
  (Euclidean division by a positive divisor is floor division).
* `Date` accessors (`getUTCFullYear` etc.) are computed from the epoch
  millisecond value with the standard proleptic-Gregorian civil-from-days
  algorithm, and `Date.UTC` with days-from-civil; both are the same
  day-numbering JS uses.
-/

-- The Batteries rational operations are `@[irreducible]`, which blocks
-- kernel evaluation of the (fully computable) embedded functions on
-- concrete inputs; restore the default reducibility for this file.
attribute [local semireducible] Rat.add Rat.mul Rat.inv Rat.sub

namespace Spec2Proof

/-! ## Numeric helpers -/

/-- Floor of a rational, written computably (`num / den` with Euclidean
integer division; the denominator is positive, so this is the floor). -/
def qfloor (q : ℚ) : ℤ := q.num / (q.den : ℤ)

/-- `Number(x.toFixed(1))`: round to one decimal, ties toward the larger
value (the ECMAScript `toFixed` rule "pick the larger n"). -/
def round1 (q : ℚ) : ℚ := (qfloor (q * 10 + 1 / 2) : ℤ) / 10

/-- Sum of a list of rationals (`reduce((a, b) => a + b, 0)`). -/
def sumQ (l : List ℚ) : ℚ := l.foldl (· + ·) 0

/-- The integers `a, a+1, …, b` (empty when `b < a`): the `for (let y = a;
y <= b; y++)` iteration space. -/
def intRange (a b : ℤ) : List ℤ :=
  (List.range (b + 1 - a).toNat).map (fun (i : ℕ) => a + (i : ℤ))

/-! ## UTC calendar model

JS `Date` is an epoch-millisecond value; the getters decompose it in UTC.
`civilFromDays`/`daysFromCivil` are the standard proleptic Gregorian
conversions (identical day numbering to ECMAScript `MakeDay`). -/

def MS_PER_DAY : ℤ := 86400000

def MS_PER_HOUR : ℤ := 3600000

/-- (year, month 1..12, day 1..31) of a day count from 1970-01-01. -/
def civilFromDays (z : ℤ) : ℤ × ℤ × ℤ :=
  let z' := z + 719468
  let era := z' / 146097
  let doe := z' - era * 146097
  let yoe := (doe - doe / 1460 + doe / 36524 - doe / 146096) / 365
  let y := yoe + era * 400
  let doy := doe - (365 * yoe + yoe / 4 - yoe / 100)
  let mp := (5 * doy + 2) / 153
  let d := doy - (153 * mp + 2) / 5 + 1
  let m := mp + (if mp < 10 then 3 else -9)
  (y + (if m ≤ 2 then 1 else 0), m, d)

/-- Day count from 1970-01-01 of a civil date (month 1..12; day may
overflow its month, in which case it extends linearly, exactly as JS
`MakeDay` normalizes an out-of-range day). -/
def daysFromCivil (y m d : ℤ) : ℤ :=
  let y' := y - (if m ≤ 2 then 1 else 0)
  let era := y' / 400
  let yoe := y' - era * 400
  let mp := m + (if m > 2 then (-3 : ℤ) else 9)
  let doy := (153 * mp + 2) / 5 + d - 1
  let doe := yoe * 365 + yoe / 4 - yoe / 100 + doy
  era * 146097 + doe - 719468

/-- Epoch-ms day number of an instant (floor). -/
def epochDay (t : ℤ) : ℤ := t / MS_PER_DAY

/-- Milliseconds since UTC midnight. -/
def msOfDay (t : ℤ) : ℤ := t % MS_PER_DAY

/-- `getUTCFullYear()` -/
def getUTCFullYear (t : ℤ) : ℤ := (civilFromDays (epochDay t)).1

/-- `getUTCMonth()` (0-based, 0..11) -/
def getUTCMonth (t : ℤ) : ℤ := (civilFromDays (epochDay t)).2.1 - 1

/-- `getUTCDate()` (1..31) -/
def getUTCDate (t : ℤ) : ℤ := (civilFromDays (epochDay t)).2.2

/-- `getUTCHours()` -/
def getUTCHours (t : ℤ) : ℤ := msOfDay t / MS_PER_HOUR

/-- `Date.UTC(y, month0, d, h, mi, s, ms)` with a 0-based month. -/
def utcMs (y month0 d h mi s ms : ℤ) : ℤ :=
  daysFromCivil y (month0 + 1) d * MS_PER_DAY
    + h * MS_PER_HOUR + mi * 60000 + s * 1000 + ms

/-! ## metrics.js: shared ACE helpers (lines 3-10) -/

def ACE_THRESHOLD : ℚ := 35

/-- `VALID_HOURS.has(d.getUTCHours())` for `VALID_HOURS = {0, 6, 12, 18}`. -/
def isSynopticHour (t : ℤ) : Bool :=
  getUTCHours t = 0 ∨ getUTCHours t = 6 ∨ getUTCHours t = 12 ∨ getUTCHours t = 18

/-- `endOfDayUTC`: same UTC day, 23:59:59.999. -/
def endOfDayUTC (t : ℤ) : ℤ :=
  utcMs (getUTCFullYear t) (getUTCMonth t) (getUTCDate t) 23 59 59 999

/-- Core of `round5` on a present wind: `Math.round(w / 5) * 5`
(`Math.round x = ⌊x + 1/2⌋`). -/
def round5Q (w : ℚ) : ℚ := (qfloor (w / 5 + 1 / 2) : ℤ) * 5

/-- `round5 = (w) => (w == null ? null : Math.round(Number(w) / 5) * 5)` -/
def round5 (w : Option ℚ) : Option ℚ := w.map round5Q

/-- `aceFromWindKt(v) = v * v / 10000` -/
def aceFromWindKt (v : ℚ) : ℚ := v * v / 10000

/-! ## Data model: one normalized IBTrACS fix (ibtracs.js lines 59-76)

`time` is the epoch-ms value of the parsed `Date` (rows whose timestamp
does not parse are dropped before this representation exists, so `time`
is total here). `usaPres` has already been coerced (`<= 0` treated as
missing). -/

structure Row where
  season : ℤ
  time : ℤ
  lat : Option ℚ := none
  lon : Option ℚ := none
  usaWind : Option ℚ := none
  usaPres : Option ℚ := none
  name : String := "UNNAMED"
  stormId : String := ""
deriving DecidableEq, Repr

/-! ## metrics.js: PAR polygon test (lines 12-47) -/

/-- `PAR_POLY` (x = lon, y = lat). -/
def PAR_POLY : List (ℚ × ℚ) :=
  [(115, 5), (115, 15), (120, 21), (120, 25), (135, 25), (135, 5)]

/-- `pointOnSegment(x, y, x1, y1, x2, y2, eps = 1e-9)` -/
def pointOnSegment (x y x1 y1 x2 y2 : ℚ) (eps : ℚ := 1 / 1000000000) : Bool :=
  let cross := (y - y1) * (x2 - x1) - (x - x1) * (y2 - y1)
  if |cross| > eps then false
  else
    let dot := (x - x1) * (x2 - x1) + (y - y1) * (y2 - y1)
    if dot < -eps then false
    else
      let lenSq := (x2 - x1) ^ 2 + (y2 - y1) ^ 2
      if dot - lenSq > eps then false
      else true

/-- The edge list traversed by both loops of `insidePAR`: indices
`i = 0..n-1` paired with `j = n-1, 0, 1, …` (each pair is `(P_i, P_j)`). -/
def polyEdges (l : List (ℚ × ℚ)) : List ((ℚ × ℚ) × (ℚ × ℚ)) :=
  match l.getLast? with
  | none => []
  | some last => l.zip (last :: l.dropLast)

/-- `insidePAR(lat, lon)`: `false` on a null coordinate; boundary-inclusive
segment test first, then even-odd ray casting. -/
def insidePAR (lat lon : Option ℚ) : Bool :=
  match lat, lon with
  | some y, some x =>
    if (polyEdges PAR_POLY).any
        (fun e => pointOnSegment x y e.1.1 e.1.2 e.2.1 e.2.2) then true
    else
      (polyEdges PAR_POLY).foldl
        (fun inside e =>
          let xi := e.1.1; let yi := e.1.2
          let xj := e.2.1; let yj := e.2.2
          let intersects :=
            ((yi > y) ≠ (yj > y)) ∧ x < (xj - xi) * (y - yi) / (yj - yi) + xi
          if intersects then !inside else inside)
        false
  | _, _ => false

/-! ## metrics.js: monthly / YTD ACE (lines 49-66, 206-253) -/

/-- `computeACEByMonth(rows, year, cutoff)`: 12 month buckets, rounded to
one decimal each as the final step. The JS guard `year && …` is number
truthiness, embedded as `year ≠ 0`; the `limit && r.time > limit` guard is
the `cutoff` option. -/
def computeACEByMonth (rows : List Row) (year : ℤ) (cutoff : Option ℤ) :
    List ℚ :=
  let limit := cutoff.map endOfDayUTC
  let monthly := rows.foldl
    (fun acc r =>
      if year ≠ 0 ∧ r.season ≠ year then acc
      else if limit.any (fun l => r.time > l) then acc
      else if !isSynopticHour r.time then acc
      else
        match round5 r.usaWind with
        | none => acc
        | some w =>
          if w ≥ ACE_THRESHOLD then
            let m := (getUTCMonth r.time).toNat
            acc.set m (acc.getD m 0 + aceFromWindKt w)
          else acc)
    (List.replicate 12 0)
  monthly.map round1

/-- The `/summary` route's season total for the IBTrACS branch
(api.js line 234): the already-rounded monthly values are summed and the
sum is rounded again. -/
def summaryTotalAce (rows : List Row) (year : ℤ) (cutoff : Option ℤ) : ℚ :=
  round1 (sumQ (computeACEByMonth rows year cutoff))

/-- `computeACEYTD(rows, year, asOfDate)`: full-precision accumulation,
rounded once at the end. (`!r.time` is always false here: `time` is a
parsed `Date` object, and the normalizer dropped unparsable rows.) -/
def computeACEYTD (rows : List Row) (year : ℤ) (asOfDate : ℤ) : ℚ :=
  let cutoff := endOfDayUTC asOfDate
  let total := rows.foldl
    (fun acc r =>
      if r.season ≠ year then acc
      else if r.time > cutoff then acc
      else if !isSynopticHour r.time then acc
      else
        match round5 r.usaWind with
        | none => acc
        | some w => if w ≥ ACE_THRESHOLD then acc + aceFromWindKt w else acc)
    0
  round1 total

/-- `computeACEYTDMonthlyCum(rows, year, asOfDate)`: 12 full-precision
month buckets, then a running cumulative sum rounded at each emission
(the accumulation itself is unrounded). -/
def computeACEYTDMonthlyCum (rows : List Row) (year : ℤ) (asOfDate : ℤ) :
    List ℚ :=
  let cutoff := endOfDayUTC asOfDate
  let monthly := rows.foldl
    (fun acc r =>
      if r.season ≠ year then acc
      else if r.time > cutoff then acc
      else if !isSynopticHour r.time then acc
      else
        match round5 r.usaWind with
        | none => acc
        | some w =>
          if w ≥ ACE_THRESHOLD then
            let m := (getUTCMonth r.time).toNat
            acc.set m (acc.getD m 0 + aceFromWindKt w)
          else acc)
    (List.replicate 12 0)
  let cum := (List.range 12).foldl
    (fun (st : List ℚ × ℚ) i =>
      let running := st.2 + monthly.getD i 0
      (st.1 ++ [round1 running], running))
    ([], 0)
  cum.1

/-! ## metrics.js: category days (lines 118-177) -/

/-- The classification labels of `classify1min` ('UNK' for a null wind). -/
inductive Cat : Type
  | UNK | TD | TS | STS | TY | STY
deriving DecidableEq, Repr

/-- `classify1min(w)` (1-minute-wind convention). -/
def classify1min (w : Option ℚ) : Cat :=
  match w with
  | none => .UNK
  | some w =>
    if w < 34 then .TD
    else if w < 48 then .TS
    else if w < 64 then .STS
    else if w < 130 then .TY
    else .STY

/-- The mutable `hours` record of `computeCategoryDays` (and, rounded, its
result shape). -/
structure CatHours where
  TD : ℚ := 0
  TS : ℚ := 0
  STS : ℚ := 0
  TY : ℚ := 0
  STY : ℚ := 0
deriving DecidableEq, Repr

/-- `hours[k] += q` — a 'UNK' key is absent from `hours`, so the guarded
JS assignment `if (hours[k] != null)` silently drops it. -/
def addHours (h : CatHours) (k : Cat) (q : ℚ) : CatHours :=
  match k with
  | .UNK => h
  | .TD => { h with TD := h.TD + q }
  | .TS => { h with TS := h.TS + q }
  | .STS => { h with STS := h.STS + q }
  | .TY => { h with TY := h.TY + q }
  | .STY => { h with STY := h.STY + q }

/-- One iteration of the fix loop of `computeCategoryDays` (lines 147-167):
the hours the fix at the head contributes, given the interval end taken
from the next fix (or `+6 h` for the last fix), cutoff trimming, the
`dtHrs <= 0` skip, and the 12-hour clip. (`Number.isFinite(dtHrs)` always
holds over exact rationals.) -/
def fixIntervalHours (limit : Option ℤ) (cur : Row) (nextTime : Option ℤ) :
    CatHours :=
  let start := cur.time
  let endT := match nextTime with
    | some tn => tn
    | none => start + 6 * MS_PER_HOUR
  if limit.any (fun l => start > l) then {}
  else
    let endT := match limit with
      | some l => if endT > l then l else endT
      | none => endT
    let dtHrs : ℚ := ((endT - start : ℤ) : ℚ) / 3600000
    if dtHrs ≤ 0 then {}
    else
      let dtHrs := if dtHrs > 12 then 12 else dtHrs
      addHours {} (classify1min cur.usaWind) dtHrs

/-- Componentwise sum of two `hours` records. -/
def addCatHours (a b : CatHours) : CatHours :=
  ⟨a.TD + b.TD, a.TS + b.TS, a.STS + b.STS, a.TY + b.TY, a.STY + b.STY⟩

/-- The inner `for (let i = 0; …)` loop over one storm's fixes. -/
def stormHours (limit : Option ℤ) : List Row → CatHours
  | [] => {}
  | cur :: rest =>
    addCatHours (fixIntervalHours limit cur (rest.head?.map (·.time)))
      (stormHours limit rest)

/-- `computeCategoryDays(stormMap, year, cutoffRefDate)`: hour totals per
category over all storms of the season, divided by 24 and rounded to one
decimal. The `limit` is built from `Date.UTC(Number(year),
cutoffRefDate.getUTCMonth(), cutoffRefDate.getUTCDate(), 23,59,59,999)`;
`year &&` truthiness is `year ≠ 0`, and the `pts[0]?.season` guard skips
an empty fix list. -/
def computeCategoryDays (stormMap : List (String × List Row)) (year : ℤ)
    (cutoffRefDate : Option ℤ) : CatHours :=
  let limit := cutoffRefDate.map
    (fun c => utcMs year (getUTCMonth c) (getUTCDate c) 23 59 59 999)
  let hours := stormMap.foldl
    (fun h e =>
      let pts := e.2
      if year ≠ 0 ∧ pts.head?.map (·.season) ≠ some year then h
      else addCatHours h (stormHours limit pts))
    {}
  { TD := round1 (hours.TD / 24), TS := round1 (hours.TS / 24),
    STS := round1 (hours.STS / 24), TY := round1 (hours.TY / 24),
    STY := round1 (hours.STY / 24) }

/-! ## metrics.js: YTD climatology (lines 255-298) -/

/-- Result shape of `computeACEYTDClimo`. -/
structure YTDClimo where
  average : ℚ
  avgCumMonthly : List ℚ
  yearsUsed : ℤ
  startYear : ℤ
  endYear : ℤ
deriving DecidableEq, Repr

/-- One season's 12 full-precision month buckets up to an end-of-day
cutoff (the inner row loop of both climatology functions and of
`computeACEYTDMonthlyCum`). -/
def perMonthACE (list : List Row) (cutoff : ℤ) : List ℚ :=
  list.foldl
    (fun acc r =>
      if r.time > cutoff then acc
      else if !isSynopticHour r.time then acc
      else
        match round5 r.usaWind with
        | none => acc
        | some w =>
          if w ≥ ACE_THRESHOLD then
            let m := (getUTCMonth r.time).toNat
            acc.set m (acc.getD m 0 + aceFromWindKt w)
          else acc)
    (List.replicate 12 0)

/-- The body of the `for (let y = startYear; y <= endYear; y++)` loop of
`computeACEYTDClimo`: state `(yearsUsed, totalSum, sumCumMonthly)`. -/
def ytdClimoStep (rows : List Row) (month day : ℤ)
    (st : ℤ × ℚ × List ℚ) (y : ℤ) : ℤ × ℚ × List ℚ :=
  let list := rows.filter (fun r => r.season = y)
  let cutoff := endOfDayUTC (utcMs y month day 0 0 0 0)
  let perMonth := perMonthACE list cutoff
  let inner := (List.range 12).foldl
    (fun (p : ℚ × List ℚ) i =>
      let run := p.1 + perMonth.getD i 0
      (run, p.2.set i (p.2.getD i 0 + run)))
    (0, st.2.2)
  (st.1 + 1, st.2.1 + inner.1, inner.2)

/-- `computeACEYTDClimo(rows, month, day, startYear, endYear)`.
`byYear.get(y) || []` is the season-`y` subsequence of `rows`; the loop
body increments `yearsUsed` for every year of the range, without any
emptiness test. -/
def computeACEYTDClimo (rows : List Row) (month day : ℤ)
    (startYear : ℤ := 1950) (endYear : ℤ := 2024) : YTDClimo :=
  let st := (intRange startYear endYear).foldl
    (ytdClimoStep rows month day) (0, 0, List.replicate 12 0)
  { average := round1 (st.2.1 / st.1),
    avgCumMonthly := st.2.2.map (fun v => round1 (v / st.1)),
    yearsUsed := st.1, startYear := startYear, endYear := endYear }

/-! ## metrics.js: daily ACE helpers and daily climatology (lines 300-407) -/

def NLEAP_CUM : List ℤ := [0, 31, 59, 90, 120, 151, 181, 212, 243, 273, 304, 334]

def LEAP_CUM : List ℤ := [0, 31, 60, 91, 121, 152, 182, 213, 244, 274, 305, 335]

/-- `isLeap(y)` (JS `%` agrees with `emod` on the positive years used). -/
def isLeap (y : ℤ) : Bool := (y % 4 = 0 ∧ y % 100 ≠ 0) ∨ y % 400 = 0

/-- `dayIndexUTC(d)`: 0-based index of the day in its own year (UTC). -/
def dayIndexUTC (t : ℤ) : ℤ :=
  let y := getUTCFullYear t
  (utcMs y (getUTCMonth t) (getUTCDate t) 0 0 0 0 - utcMs y 0 1 0 0 0 0)
    / MS_PER_DAY

/-- `normDayIndexUTC(d)`: 0-based day index with February 29 removed
(`null`, i.e. `none`, exactly on a leap-year Feb 29). -/
def normDayIndexUTC (t : ℤ) : Option ℤ :=
  let y := getUTCFullYear t
  let m := getUTCMonth t
  let day := getUTCDate t
  let idx := dayIndexUTC t
  if !isLeap y then some idx
  else if m = 1 ∧ day = 29 then none
  else if m > 1 ∨ (m = 1 ∧ day > 29) then some (idx - 1)
  else some idx

/-- A leap-year February 29 instant (the exact condition under which
`normDayIndexUTC` returns `null`). -/
def isFeb29Leap (t : ℤ) : Bool :=
  isLeap (getUTCFullYear t) ∧ getUTCMonth t = 1 ∧ getUTCDate t = 29

/-- `normLengthToMonthDay(month, day)` for `month = 0..11`. -/
def normLengthToMonthDay (month day : ℤ) : ℤ :=
  NLEAP_CUM.getD month.toNat 0 + day

/-- Result shape of `computeACEDailyClimo` (tooltip labels omitted: they
are presentation strings derived index-by-index from a synthetic year). -/
structure DailyClimo where
  avgDaily : List ℚ
  avgCum : List ℚ
  yearsUsed : ℤ
  startYear : ℤ
  endYear : ℤ
deriving DecidableEq, Repr

/-- One row of the inner loop of `computeACEDailyClimo`
(lines 378-388). -/
def dailyBucketStep (y : ℤ) (cutoffY : ℤ) (n : ℕ) (acc : List ℚ)
    (r : Row) : List ℚ :=
  if r.season ≠ y then acc
  else if r.time > cutoffY then acc
  else if !isSynopticHour r.time then acc
  else
    match round5 r.usaWind with
    | none => acc
    | some w =>
      if w < ACE_THRESHOLD then acc
      else
        match normDayIndexUTC r.time with
        | none => acc
        | some ni =>
          if 0 ≤ ni ∧ ni < (n : ℤ) then
            acc.set ni.toNat (acc.getD ni.toNat 0 + aceFromWindKt w)
          else acc

/-- One season's normalized daily buckets (the inner row loop of
`computeACEDailyClimo`). -/
def dailyBucketsYear (rows : List Row) (y : ℤ) (cutoffY : ℤ) (n : ℕ) :
    List ℚ :=
  rows.foldl (dailyBucketStep y cutoffY n) (List.replicate n 0)

/-- The body of the year loop of `computeACEDailyClimo`: state
`(sumDaily, yearsUsed)`. -/
def dailyClimoStep (rows : List Row) (endMonth endDay : ℤ) (n : ℕ)
    (st : List ℚ × ℤ) (y : ℤ) : List ℚ × ℤ :=
  let cutoffY := endOfDayUTC (utcMs y endMonth endDay 0 0 0 0)
  let dailyY := dailyBucketsYear rows y cutoffY n
  (st.1.zipWith (· + ·) dailyY, st.2 + 1)

/-- `computeACEDailyClimo(rows, endMonth, endDay, startYear, endYear)`:
sum the per-year normalized daily buckets over the year range (counting
every year), average, then build `avgCum` by accumulating the
already-rounded `avgDaily` entries. -/
def computeACEDailyClimo (rows : List Row) (endMonth endDay : ℤ)
    (startYear : ℤ := 1950) (endYear : ℤ := 2024) : DailyClimo :=
  let n := (normLengthToMonthDay endMonth endDay).toNat
  let st := (intRange startYear endYear).foldl
    (dailyClimoStep rows endMonth endDay n)
    (List.replicate n 0, 0)
  let yearsUsed := st.2
  let avgDaily := st.1.map (fun v => round1 (v / yearsUsed))
  let avgCum := ((List.range n).foldl
    (fun (p : ℚ × List ℚ) i =>
      let run := p.1 + avgDaily.getD i 0
      (run, p.2 ++ [round1 run]))
    (0, [])).2
  { avgDaily := avgDaily, avgCum := avgCum, yearsUsed := yearsUsed,
    startYear := startYear, endYear := endYear }

/-! ## ibtracs.js: storm-identity resolution and grouping (lines 81-169)

Step 1 of `loadIBTrACS` (spreadsheet reading and per-row parsing) is I/O;
the embedding starts from its output, a list of normalized `Row`s whose
`stormId` is the raw `atcf || sid || ''` external identifier. -/

/-- JS `String.prototype.toUpperCase` (character map; structural so that
it evaluates). -/
def strToUpper (s : String) : String := ⟨s.data.map Char.toUpper⟩

/-- Split a character list at every occurrence of `c` (the semantics of
JS `String.prototype.split` with a one-character separator). -/
def splitCharAux (c : Char) : List Char → List (List Char)
  | [] => [[]]
  | x :: xs =>
    if x = c then [] :: splitCharAux c xs
    else
      match splitCharAux c xs with
      | h :: t => (x :: h) :: t
      | [] => [[x]]

/-- JS `s.split(c)` for a one-character separator. -/
def strSplit (s : String) (c : Char) : List String :=
  (splitCharAux c s.data).map String.mk

/-- JS `String.prototype.trim`: strip leading and trailing whitespace. -/
def strTrim (s : String) : String :=
  ⟨((s.data.dropWhile Char.isWhitespace).reverse.dropWhile
      Char.isWhitespace).reverse⟩

/-- Two-digit zero-padded decimal rendering (faithful for `0 ≤ n < 100`),
as produced by the `MM`/`DD`/`HH` fields of dayjs `format`. -/
def pad2Chars (n : ℤ) : List Char :=
  [Nat.digitChar (n.toNat / 10 % 10), Nat.digitChar (n.toNat % 10)]

/-- Four-digit zero-padded decimal rendering (faithful for
`0 ≤ y ≤ 9999`), the `YYYY` field of dayjs `format`. -/
def pad4Chars (y : ℤ) : List Char :=
  [Nat.digitChar (y.toNat / 1000 % 10), Nat.digitChar (y.toNat / 100 % 10),
   Nat.digitChar (y.toNat / 10 % 10), Nat.digitChar (y.toNat % 10)]

/-- `dayjs.utc(t).format('YYYYMMDDHH')`. -/
def formatYMDH (t : ℤ) : String :=
  ⟨pad4Chars (getUTCFullYear t) ++ pad2Chars (getUTCMonth t + 1) ++
    pad2Chars (getUTCDate t) ++ pad2Chars (getUTCHours t)⟩

/-- The comparator `(a, b) => a.time - b.time` as an ordering relation. -/
def byTime (a b : Row) : Prop := a.time ≤ b.time

instance : DecidableRel byTime := fun a b =>
  inferInstanceAs (Decidable (a.time ≤ b.time))

instance : IsTotal Row byTime := ⟨fun a b => Int.le_total a.time b.time⟩

instance : IsTrans Row byTime := ⟨fun _ _ _ => Int.le_trans⟩

/-- The `byNameSeason` map key `` `${r.name.toUpperCase()}_${r.season || ''}` ``. -/
def nameSeasonKey (r : Row) : String :=
  strToUpper r.name ++ "_" ++
    (if r.season = 0 then "" else toString r.season)

/-- Key list of a JS `Map` built by insertion: each key once, in
first-occurrence order. -/
def firstDedup : List String → List String :=
  go []
where
  go (seen : List String) : List String → List String
    | [] => []
    | k :: rest =>
      if k ∈ seen then go seen rest else k :: go (k :: seen) rest

/-- The `counts` map of `canonicalIdForGroup`: external-id occurrence
counts in first-occurrence order. -/
def idCounts (list : List Row) : List (String × ℕ) :=
  list.foldl
    (fun acc r =>
      let id := strTrim r.stormId
      if id = "" then acc
      else if acc.any (fun e => e.1 = id) then
        acc.map (fun e => if e.1 = id then (e.1, e.2 + 1) else e)
      else acc ++ [(id, 1)])
    []

/-- `canonicalIdForGroup(name, season, list)` (the `season` argument is
unused in the source body and omitted): for a named storm with at least
one external id, the most frequent id, ties broken by first-encountered
order (JS `sort` is stable, as is `insertionSort`). -/
def canonicalIdForGroup (name : String) (list : List Row) : Option String :=
  if strToUpper name ≠ "UNNAMED" then
    let counts := idCounts list
    if counts ≠ [] then
      (List.insertionSort (fun a b => b.2 ≤ a.2) counts).head?.map (·.1)
    else none
  else none

/-- The gap-segmentation loop body: `prev` is the previously pushed fix,
`segRev` the current segment (reversed). -/
def splitByGapGo (prev : Row) (segRev : List Row) :
    List Row → List (List Row)
  | [] => [segRev.reverse]
  | cur :: rest =>
    let gapHrs : ℚ := ((cur.time - prev.time : ℤ) : ℚ) / 3600000
    if gapHrs ≤ 24 then splitByGapGo cur (cur :: segRev) rest
    else segRev.reverse :: splitByGapGo cur [cur] rest

/-- Gap segmentation (lines 117-139): split the time-sorted group after
every consecutive gap of more than 24 hours. -/
def splitByGap : List Row → List (List Row)
  | [] => []
  | x :: xs => splitByGapGo x [x] xs

/-- Segment id assignment (lines 126-128 and 135-137): an external id
found within the segment, else the synthetic
`` `${nm}_${yr}_${anchor}` `` key anchored at the segment's first
timestamp. -/
def segAssign (nm yr : String) (seg : List Row) : List Row :=
  let segId := match seg.find? (fun x => x.stormId ≠ "") with
    | some x => x.stormId
    | none =>
      nm ++ "_" ++ yr ++ "_" ++
        formatYMDH (match seg.head? with | some h => h.time | none => 0)
  seg.map (fun r => { r with stormId := segId })

/-- Step 2 of `loadIBTrACS` (lines 84-141): canonicalize ids per
`(uppercased name, season)` group, in first-occurrence group order.
`key.split('_')` destructuring recovers the name and season parts. -/
def canonicalize (rows : List Row) : List Row :=
  (firstDedup (rows.map nameSeasonKey)).foldl
    (fun out key =>
      let list := List.insertionSort byTime
        (rows.filter (fun r => nameSeasonKey r = key))
      let parts := strSplit key '_'
      let nm := parts.getD 0 ""
      let yr := parts.getD 1 ""
      match canonicalIdForGroup nm list with
      | some canon => out ++ list.map (fun r => { r with stormId := canon })
      | none => out ++ ((splitByGap list).map (segAssign nm yr)).flatten)
    []

/-- The id under which step 3 de-duplicates a fix:
`(r.stormId || '').trim() || `${r.name}_${r.season}` `. -/
def dedupId (r : Row) : String :=
  if strTrim r.stormId = "" then r.name ++ "_" ++ toString r.season
  else strTrim r.stormId

/-- Step 3 of `loadIBTrACS` (lines 143-154): drop exact `(id, time)`
duplicates, keeping the first occurrence, and store the id on the kept
fix. The JS `Set` key `` `${id}|${time}` `` is modelled as the pair — the
millisecond rendering contains no `'|'`, so the string key is an
injective pairing. -/
def dedupStep (st : List (String × ℤ) × List Row) (r : Row) :
    List (String × ℤ) × List Row :=
  let id := dedupId r
  if (id, r.time) ∈ st.1 then st
  else ((id, r.time) :: st.1, st.2 ++ [{ r with stormId := id }])

def dedupFixes (rows : List Row) : List Row :=
  (rows.foldl dedupStep ([], [])).2

/-- Steps 2-3 of `loadIBTrACS`: what the parser returns, given the
normalized rows of step 1. -/
def assignStormIds (rows : List Row) : List Row :=
  dedupFixes (canonicalize rows)

/-- The `groupByStorm` map key
`` r.stormId || `${(r.name || 'UNNAMED').toUpperCase()}_${r.season || 'NA'}` ``. -/
def groupKey (r : Row) : String :=
  if r.stormId = "" then
    strToUpper (if r.name = "" then "UNNAMED" else r.name) ++ "_" ++
      (if r.season = 0 then "NA" else toString r.season)
  else r.stormId

/-- `groupByStorm(rows, year)`: season-filtered fixes grouped by storm id
(insertion order), each group sorted by time. A missing/zero `year` (JS
falsy) disables the season filter. -/
def groupByStorm (rows : List Row) (year : Option ℤ) :
    List (String × List Row) :=
  let included := rows.filter
    (fun r => !(year.any (fun y => y ≠ 0 ∧ r.season ≠ y)))
  (firstDedup (included.map groupKey)).map
    (fun k =>
      (k, List.insertionSort byTime
        (included.filter (fun r => groupKey r = k))))

/-! ## bdeck.js and api.js: bulletin storms and route cores -/

/-- One parsed b-deck line (bdeck.js `parseBDeckText`): a line is kept
only if its timestamp and both coordinates parse, so `t`, `lat`, `lon`
are total; `wind`/`pres` stay nullable (`toInt`). -/
structure BPoint where
  t : ℤ
  lat : ℚ := 0
  lon : ℚ := 0
  wind : Option ℚ := none
  pres : Option ℚ := none
deriving DecidableEq, Repr

/-- One bulletin storm (bdeck.js): `num` is the probed storm number. -/
structure BStorm where
  id : String
  num : ℤ
  year : ℤ
  points : List BPoint
deriving DecidableEq, Repr

/-- The comparator `(a, b) => a.t - b.t` on b-deck points. -/
def byT (a b : BPoint) : Prop := a.t ≤ b.t

instance : DecidableRel byT := fun a b =>
  inferInstanceAs (Decidable (a.t ≤ b.t))

instance : IsTotal BPoint byT := ⟨fun a b => Int.le_total a.t b.t⟩

instance : IsTrans BPoint byT := ⟨fun _ _ _ => Int.le_trans⟩

/-- The comparator `(a, b) => a.num - b.num` on bulletin storms. -/
def byNum (a b : BStorm) : Prop := a.num ≤ b.num

instance : DecidableRel byNum := fun a b =>
  inferInstanceAs (Decidable (a.num ≤ b.num))

instance : IsTotal BStorm byNum := ⟨fun a b => Int.le_total a.num b.num⟩

instance : IsTrans BStorm byNum := ⟨fun _ _ _ => Int.le_trans⟩

/-- `` `WP${String(num).padStart(2, '0')}${year}` `` -/
def bdeckId (num : ℕ) (year : ℤ) : String :=
  "WP" ++ (if num < 10 then "0" else "") ++ toString num ++ toString year

/-- `fetchActiveBDecks(year, max)` (bdeck.js lines 120-146), with the
network fetch and per-line text parsing abstracted as `remote`: for each
probed number `n = 1..max`, `remote n` is the parsed point list of
`bwp{n}{year}.dat`, or `none` when the file is absent or the fetch
failed. `parseBDeckText` always assigns `num` from the probed number and
sorts the points by time; storms with no points are dropped; the result
is sorted by `num`. -/
def fetchActiveBDecks (remote : ℕ → Option (List BPoint)) (year : ℤ)
    (mx : ℕ := 60) : List BStorm :=
  let storms := ((List.range mx).map (· + 1)).filterMap
    (fun n =>
      match remote n with
      | none => none
      | some pts =>
        let storm : BStorm :=
          { id := bdeckId n year, num := (n : ℤ), year := year,
            points := List.insertionSort byT pts }
        if storm.points.length ≠ 0 then some storm else none)
  List.insertionSort byNum storms

/-- `isInvest = n => n >= 90 && n <= 99` (api.js line 89). -/
def isInvest (n : ℤ) : Bool := 90 ≤ n ∧ n ≤ 99

/-- `bdeckToStormMap(bstorms)` (api.js lines 92-109): invest-numbered
storms skipped; points reshaped to the IBTrACS fix shape (`s.name` is
absent on fetched bulletin storms, hence `''`), sorted by time. -/
def bdeckToStormMap (bstorms : List BStorm) : List (String × List Row) :=
  bstorms.filterMap
    (fun s =>
      if isInvest s.num then none
      else
        let pts := s.points.map
          (fun p => ({ season := s.year, time := p.t, lat := some p.lat,
                       lon := some p.lon, usaWind := p.wind,
                       usaPres := p.pres, name := "" } : Row))
        some (s.id, List.insertionSort byTime pts))

/-- `monthlyAceFromBDecks(bstorms, cutoff)` (api.js lines 112-136):
full-precision monthly buckets and total, each rounded once at the end.
(`!p.t` is always false: `t` is a parsed timestamp.) -/
def monthlyAceFromBDecks (bstorms : List BStorm) (cutoff : Option ℤ) :
    List ℚ × ℚ :=
  let limit := cutoff.map endOfDayUTC
  let st := bstorms.foldl
    (fun (st : List ℚ × ℚ) s =>
      if isInvest s.num then st
      else
        s.points.foldl
          (fun (st : List ℚ × ℚ) p =>
            if limit.any (fun l => p.t > l) then st
            else if !isSynopticHour p.t then st
            else
              match round5 p.wind with
              | none => st
              | some w =>
                if w ≥ 35 then
                  let ace := aceFromWindKt w
                  let m := (getUTCMonth p.t).toNat
                  (st.1.set m (st.1.getD m 0 + ace), st.2 + ace)
                else st)
          st)
    (List.replicate 12 0, 0)
  (st.1.map round1, round1 st.2)

/-- `aceYTDFromBDecks(bstorms, cutoffDate)` (api.js lines 140-161):
full-precision monthly buckets, cumulative curve rounded at each
emission, total rounded once. -/
def aceYTDFromBDecks (bstorms : List BStorm) (cutoffDate : ℤ) :
    ℚ × List ℚ :=
  let limit := endOfDayUTC cutoffDate
  let st := bstorms.foldl
    (fun (st : List ℚ × ℚ) s =>
      if isInvest s.num then st
      else
        s.points.foldl
          (fun (st : List ℚ × ℚ) p =>
            if p.t > limit then st
            else if !isSynopticHour p.t then st
            else
              match round5 p.wind with
              | none => st
              | some w =>
                if w ≥ 35 then
                  let ace := aceFromWindKt w
                  let m := (getUTCMonth p.t).toNat
                  (st.1.set m (st.1.getD m 0 + ace), st.2 + ace)
                else st)
          st)
    (List.replicate 12 0, 0)
  let cum := ((List.range 12).foldl
    (fun (p : ℚ × List ℚ) i =>
      let run := p.1 + st.1.getD i 0
      (run, p.2 ++ [round1 run]))
    (0, [])).2
  (round1 st.2, cum)

/-- Result shape of `dailyFromBDecks`. -/
structure DailySeries where
  daily : List ℚ
  cum : List ℚ
  total : ℚ
deriving DecidableEq, Repr

/-- `dailyFromBDecks(bstorms, endDate)` (api.js lines 50-80): invest
storms skipped; per-day full-precision buckets from season start to the
end date, cumulative curve accumulated unrounded. -/
def dailyFromBDecks (bstorms : List BStorm) (endDate : ℤ) : DailySeries :=
  let limit := endOfDayUTC endDate
  let year := getUTCFullYear endDate
  let start := utcMs year 0 1 0 0 0 0
  let nDays := ((utcMs year (getUTCMonth endDate) (getUTCDate endDate)
    0 0 0 0 - start) / MS_PER_DAY + 1).toNat
  let daily := bstorms.foldl
    (fun acc s =>
      if isInvest s.num then acc
      else
        s.points.foldl
          (fun (acc : List ℚ) p =>
            if p.t > limit then acc
            else if !isSynopticHour p.t then acc
            else
              match round5 p.wind with
              | none => acc
              | some w =>
                if w ≥ 35 then
                  let di := (utcMs (getUTCFullYear p.t) (getUTCMonth p.t)
                    (getUTCDate p.t) 0 0 0 0 - start) / MS_PER_DAY
                  if 0 ≤ di ∧ di < (nDays : ℤ) then
                    acc.set di.toNat (acc.getD di.toNat 0 + aceFromWindKt w)
                  else acc
                else acc)
          acc)
    (List.replicate nDays 0)
  let cum := ((List.range nDays).foldl
    (fun (p : ℚ × List ℚ) i =>
      let run := p.1 + daily.getD i 0
      (run, p.2 ++ [round1 run]))
    (0, [])).2
  { daily := daily.map round1, cum := cum, total := cum.getLastD 0 }

/-- The bulletin branch of `GET /storms/:id/track` (api.js lines
366-373): find the requested storm among the fetched bulletin storms and
return its points unfiltered. -/
def trackRouteBDeck (bstorms : List BStorm) (id : String) :
    Option (List BPoint) :=
  (bstorms.find? (fun x => x.id = id)).map (·.points)

/-- The `GET /current/bdecks` storm list (api.js lines 391-403): invest
storms filtered out, per-storm ACE over synoptic-hour points
(a null rounded wind fails `w >= 35`). -/
def currentBdecksAces (bstorms : List BStorm) : List (String × ℤ × ℚ) :=
  (bstorms.filter (fun s => !isInvest s.num)).map
    (fun s =>
      let ace := s.points.foldl
        (fun acc p =>
          if !isSynopticHour p.t then acc
          else
            match round5 p.wind with
            | none => acc
            | some w => if w ≥ 35 then acc + w * w / 10000 else acc)
        0
      (s.id, s.num, round1 ace))

/-! ## Concrete fixtures used by the claim theorems -/

/-- Three synoptic (00Z) 35-kt fixes of season 2000, one each in January,
February, March (2000-01-01, 2000-02-01, 2000-03-01). -/
def threeMonths35kt : List Row :=
  [{ season := 2000, time := 946684800000, usaWind := some 35 },
   { season := 2000, time := 949363200000, usaWind := some 35 },
   { season := 2000, time := 951868800000, usaWind := some 35 }]

/-- Three synoptic (00Z) 35-kt fixes of season 2000 on January 1, 2, 3. -/
def threeDays35kt : List Row :=
  [{ season := 2000, time := 946684800000, usaWind := some 35 },
   { season := 2000, time := 946771200000, usaWind := some 35 },
   { season := 2000, time := 946857600000, usaWind := some 35 }]

/-- One synoptic 35-kt fix of season 2001 (2001-01-01T00Z) and nothing
else: season 2000 has no rows at all. -/
def oneRow2001 : List Row :=
  [{ season := 2001, time := 978307200000, usaWind := some 35 }]

end Spec2Proof

namespace Spec2Proof

/-! # Helper lemmas -/

theorem qfloor_eq_floor (q : ℚ) : qfloor q = ⌊q⌋ := Rat.floor_def.symm

/-- `⌊u + 1/2⌋` is a nearest integer to `u`. -/
theorem floor_add_half_nearest (u : ℚ) (k : ℤ) :
    |(⌊u + 1 / 2⌋ : ℚ) - u| ≤ |(k : ℚ) - u| := by
  have h1 : ((⌊u + 1 / 2⌋ : ℤ) : ℚ) ≤ u + 1 / 2 := Int.floor_le _
  have h2 : u + 1 / 2 < ((⌊u + 1 / 2⌋ : ℤ) : ℚ) + 1 := Int.lt_floor_add_one _
  rcases lt_trichotomy k ⌊u + 1 / 2⌋ with hk | hk | hk
  · have hc : ((k + 1 : ℤ) : ℚ) ≤ ((⌊u + 1 / 2⌋ : ℤ) : ℚ) :=
      Int.cast_le.mpr (by omega)
    push_cast at hc
    rcases abs_cases (((⌊u + 1 / 2⌋ : ℤ) : ℚ) - u) with ⟨e1, g1⟩ | ⟨e1, g1⟩ <;>
      rcases abs_cases ((k : ℚ) - u) with ⟨e2, g2⟩ | ⟨e2, g2⟩ <;>
      rw [e1, e2] <;> linarith
  · simp [hk]
  · have hc : ((⌊u + 1 / 2⌋ + 1 : ℤ) : ℚ) ≤ ((k : ℤ) : ℚ) :=
      Int.cast_le.mpr (by omega)
    push_cast at hc
    rcases abs_cases (((⌊u + 1 / 2⌋ : ℤ) : ℚ) - u) with ⟨e1, g1⟩ | ⟨e1, g1⟩ <;>
      rcases abs_cases ((k : ℚ) - u) with ⟨e2, g2⟩ | ⟨e2, g2⟩ <;>
      rw [e1, e2] <;> linarith

/-! # Claim C3: round5 -/

/-- **C3** counterexample: the claim asserts `round5(37) = 40`, but the
nearest multiple of 5 to 37 is 35, and the code returns 35. -/
theorem C3_counterexample_round5_37 :
    round5 (some 37) = some 35 ∧ round5 (some 37) ≠ some 40 := by decide

/-- **C3** (amended): for every wind `w`, `round5 w` is a multiple of 5
nearest to `w`, with ties (half-way points) rounding up; in particular
`round5 37 = 35` (not 40) and `round5 32 = 30`, and `round5 null = null`. -/
theorem C3_round5_nearest_multiple_of_5 :
    (∀ w : ℚ, ∃ k : ℤ, round5Q w = 5 * k) ∧
    (∀ (w : ℚ) (k : ℤ), |round5Q w - w| ≤ |5 * (k : ℚ) - w|) ∧
    (∀ (w : ℚ) (k : ℤ), w = 5 * k + 5 / 2 → round5Q w = 5 * (k + 1)) ∧
    round5 (some 37) = some 35 ∧ round5 (some 32) = some 30 ∧
    round5 none = none := by
  refine ⟨fun w => ⟨qfloor (w / 5 + 1 / 2), by rw [round5Q]; ring⟩,
    fun w k => ?_, fun w k hw => ?_, by decide, by decide, rfl⟩
  · rw [round5Q, qfloor_eq_floor]
    have h5 : |(5 : ℚ)| = 5 := by norm_num
    calc |(⌊w / 5 + 1 / 2⌋ : ℚ) * 5 - w|
        = |(5 : ℚ)| * |(⌊w / 5 + 1 / 2⌋ : ℚ) - w / 5| := by
          rw [← abs_mul]; congr 1; ring
      _ ≤ |(5 : ℚ)| * |(k : ℚ) - w / 5| := by
          rw [h5]
          have := floor_add_half_nearest (w / 5) k
          linarith
      _ = |5 * (k : ℚ) - w| := by rw [← abs_mul]; congr 1; ring
  · have hdiv : w / 5 + 1 / 2 = ((k + 1 : ℤ) : ℚ) := by
      rw [hw]; push_cast; ring
    rw [round5Q, qfloor_eq_floor, hdiv, Int.floor_intCast]
    push_cast; ring

/-! # Claim C2: climatology years used -/

/-- The year loop iterates `endYear - startYear + 1` times. -/
theorem intRange_length (a b : ℤ) :
    (intRange a b).length = (b + 1 - a).toNat := by
  rw [intRange, List.length_map, List.length_range]


/-- `ytdClimoStep` always increments `yearsUsed` by one. -/
theorem foldl_ytdClimoStep_years (rows : List Row) (month day : ℤ) :
    ∀ (l : List ℤ) (st : ℤ × ℚ × List ℚ),
      (l.foldl (ytdClimoStep rows month day) st).1 = st.1 + l.length := by
  intro l
  induction l with
  | nil => simp
  | cons y l ih =>
    intro st
    rw [List.foldl_cons, ih]
    simp [ytdClimoStep]
    omega

/-- `dailyClimoStep` always increments `yearsUsed` by one. -/
theorem foldl_dailyClimoStep_years (rows : List Row) (m d : ℤ) (n : ℕ) :
    ∀ (l : List ℤ) (st : List ℚ × ℤ),
      (l.foldl (dailyClimoStep rows m d n) st).2 = st.2 + l.length := by
  intro l
  induction l with
  | nil => simp
  | cons y l ih =>
    intro st
    rw [List.foldl_cons, ih]
    simp [dailyClimoStep]
    omega

/-- **C2** counterexample: with one season-2001 row and the range
2000..2001, the year 2000 has no rows at all, yet both climatology
functions report `yearsUsed = 2` instead of skipping it (the claim
demands `yearsUsed = 1` here). -/
theorem C2_counterexample_empty_year_counted :
    (computeACEYTDClimo oneRow2001 5 1 2000 2001).yearsUsed = 2 ∧
    (computeACEDailyClimo oneRow2001 5 1 2000 2001).yearsUsed = 2 ∧
    (oneRow2001.filter (fun r => r.season = 2000)).length = 0 ∧
    (oneRow2001.filter (fun r => r.season = 2001)).length = 1 := by decide

/-- **C2** (amended): `computeACEYTDClimo` and `computeACEDailyClimo`
count every year of the inclusive range `[startYear, endYear]` toward
`yearsUsed` (and divide by that count), whether or not any rows exist for
the year: `yearsUsed = endYear - startYear + 1` whenever the range is
nonempty, and 0 otherwise, for every row collection. -/
theorem C2_yearsUsed_is_range_size :
    ∀ (rows : List Row) (month day startYear endYear : ℤ),
      (computeACEYTDClimo rows month day startYear endYear).yearsUsed
        = ((endYear + 1 - startYear).toNat : ℤ) ∧
      (computeACEDailyClimo rows month day startYear endYear).yearsUsed
        = ((endYear + 1 - startYear).toNat : ℤ) := by
  intro rows month day startYear endYear
  constructor
  · simp only [computeACEYTDClimo]
    rw [foldl_ytdClimoStep_years, intRange_length]
    omega
  · simp only [computeACEDailyClimo]
    rw [foldl_dailyClimoStep_years, intRange_length]
    omega

/-! # Claim C1: single final rounding -/

/-- **C1**: two emitted totals are not the once-rounded full-precision
sum. (a) The `/summary` IBTrACS season total re-rounds a sum of
already-rounded monthly buckets: on three synoptic 35-kt fixes in three
months it emits 0.3, while the once-rounded full-precision total — which
`computeACEYTD` emits for the same rows, and which equals
`round1(3 · 35²/10⁴) = round1(0.3675)` — is 0.4. (b) The daily
climatology's cumulative curve accumulates already-rounded `avgDaily`
entries: on three 35-kt fixes on three days (single-year baseline) its
day-3 value is 0.3 where the once-rounded cumulative sum is 0.4. -/
theorem C1_totals_accumulate_rounded_values :
    summaryTotalAce threeMonths35kt 2000 none = 3 / 10 ∧
    computeACEYTD threeMonths35kt 2000 (utcMs 2000 11 31 0 0 0 0) = 2 / 5 ∧
    round1 (sumQ (List.replicate 3 (aceFromWindKt (round5Q 35)))) = 2 / 5 ∧
    (computeACEDailyClimo threeDays35kt 0 3 2000 2000).avgCum.getD 2 0
      = 3 / 10 ∧
    round1 (3 * aceFromWindKt (round5Q 35)) = 2 / 5 := by decide

/-! # Claim C9: insidePAR -/

/-- A convex combination of a segment's endpoints passes
`pointOnSegment` (cross product exactly 0, projection within bounds,
well within the 1e-9 tolerance). -/
theorem pointOnSegment_of_convex (x1 y1 x2 y2 s : ℚ)
    (hs0 : 0 ≤ s) (hs1 : s ≤ 1) :
    pointOnSegment (x1 + s * (x2 - x1)) (y1 + s * (y2 - y1))
      x1 y1 x2 y2 = true := by
  have hcross : (y1 + s * (y2 - y1) - y1) * (x2 - x1)
      - (x1 + s * (x2 - x1) - x1) * (y2 - y1) = 0 := by ring
  have hdot : (x1 + s * (x2 - x1) - x1) * (x2 - x1)
      + (y1 + s * (y2 - y1) - y1) * (y2 - y1)
      = s * ((x2 - x1) ^ 2 + (y2 - y1) ^ 2) := by ring
  have hL : (0 : ℚ) ≤ (x2 - x1) ^ 2 + (y2 - y1) ^ 2 := by positivity
  have h1 : ¬ (|(0 : ℚ)| > 1 / 1000000000) := by norm_num
  have h2 : ¬ (s * ((x2 - x1) ^ 2 + (y2 - y1) ^ 2) < -(1 / 1000000000)) := by
    nlinarith
  have h3 : ¬ (s * ((x2 - x1) ^ 2 + (y2 - y1) ^ 2)
      - ((x2 - x1) ^ 2 + (y2 - y1) ^ 2) > 1 / 1000000000) := by nlinarith
  simp only [pointOnSegment, hcross, hdot]
  rw [if_neg h1, if_neg h2, if_neg h3]

/-- **C9**: `insidePAR` returns `false` whenever either coordinate is
null, and returns `true` for every point lying exactly on an edge (hence
on a vertex) of the fixed polygon, through the boundary test alone,
before and independently of the parity test. (The embedding is a pure
function of its two arguments and the fixed `PAR_POLY` by construction.) -/
theorem C9_insidePAR_null_false_boundary_true :
    (∀ lo : Option ℚ, insidePAR none lo = false) ∧
    (∀ la : Option ℚ, insidePAR la none = false) ∧
    (∀ (x1 y1 x2 y2 s : ℚ), ((x1, y1), (x2, y2)) ∈ polyEdges PAR_POLY →
      0 ≤ s → s ≤ 1 →
      insidePAR (some (y1 + s * (y2 - y1)))
        (some (x1 + s * (x2 - x1))) = true) := by
  refine ⟨fun lo => by cases lo <;> rfl, fun la => by cases la <;> rfl,
    fun x1 y1 x2 y2 s he hs0 hs1 => ?_⟩
  have hany : (polyEdges PAR_POLY).any
      (fun e => pointOnSegment (x1 + s * (x2 - x1)) (y1 + s * (y2 - y1))
        e.1.1 e.1.2 e.2.1 e.2.2) = true :=
    List.any_eq_true.mpr
      ⟨((x1, y1), (x2, y2)), he, pointOnSegment_of_convex x1 y1 x2 y2 s hs0 hs1⟩
  simp only [insidePAR]
  rw [if_pos hany]

/-! # Claim C10: null wind contributes to no category -/

/-- Folding a step that leaves the state unchanged on every element
returns the initial state. -/
theorem foldl_fixed {α β : Type} (l : List α) (f : β → α → β) (init : β)
    (h : ∀ b : β, ∀ x ∈ l, f b x = b) : l.foldl f init = init := by
  induction l generalizing init with
  | nil => rfl
  | cons x l ih =>
    rw [List.foldl_cons, h init x (List.mem_cons_self x l)]
    exact ih init (fun b y hy => h b y (List.mem_cons_of_mem x hy))

/-- A fix with a null wind contributes zero hours to every bucket. -/
theorem fixIntervalHours_of_null_wind (limit : Option ℤ) (cur : Row)
    (nextT : Option ℤ) (hw : cur.usaWind = none) :
    fixIntervalHours limit cur nextT = {} := by
  simp only [fixIntervalHours, hw, classify1min, addHours]
  split
  · rfl
  · split <;> rfl

/-- `stormHours` of an all-null-wind storm is zero. -/
theorem stormHours_of_null_winds (limit : Option ℤ) :
    ∀ pts : List Row, (∀ r ∈ pts, r.usaWind = none) →
      stormHours limit pts = {} := by
  intro pts
  induction pts with
  | nil => intro _; rfl
  | cons cur rest ih =>
    intro h
    rw [stormHours, fixIntervalHours_of_null_wind limit cur _
        (h cur (List.mem_cons_self cur rest)),
      ih (fun r hr => h r (List.mem_cons_of_mem cur hr))]
    simp [addCatHours]

/-- **C10**: a fix whose wind is null is classified into no category: its
interval contributes zero hours to each of the TD/TS/STS/TY/STY buckets
of `computeCategoryDays` (so a storm map consisting only of null-wind
fixes yields the all-zero category-day record). -/
theorem C10_null_wind_contributes_nothing :
    (∀ (limit : Option ℤ) (cur : Row) (nextT : Option ℤ),
      cur.usaWind = none → fixIntervalHours limit cur nextT = {}) ∧
    (∀ (w : Option ℚ), w = none → classify1min w = .UNK) ∧
    (∀ (stormMap : List (String × List Row)) (year : ℤ)
        (cutoff : Option ℤ),
      (∀ e ∈ stormMap, ∀ r ∈ e.2, r.usaWind = none) →
      computeCategoryDays stormMap year cutoff = {}) := by
  refine ⟨fixIntervalHours_of_null_wind, fun w hw => by rw [hw]; rfl,
    fun stormMap year cutoff h => ?_⟩
  have hfold : stormMap.foldl
      (fun h e =>
        if year ≠ 0 ∧ e.2.head?.map (·.season) ≠ some year then h
        else addCatHours h (stormHours (cutoff.map
          (fun c => utcMs year (getUTCMonth c) (getUTCDate c) 23 59 59 999))
          e.2))
      {} = ({} : CatHours) := by
    refine foldl_fixed _ _ _ (fun b e he => ?_)
    rw [stormHours_of_null_winds _ e.2 (h e he)]
    split
    · rfl
    · simp [addCatHours]
  show ({ TD := _, TS := _, STS := _, TY := _, STY := _ } : CatHours) = {}
  rw [hfold]
  decide

/-! # Claim C6: category-day interval crediting -/

/-- With no cutoff, a fix followed by a later fix is credited
`(next - cur)/36e5` hours, clipped at 12, into its category. -/
theorem fixIntervalHours_none_next (cur : Row) (tn : ℤ)
    (hpos : 0 < tn - cur.time) :
    fixIntervalHours none cur (some tn)
      = addHours {} (classify1min cur.usaWind)
          (if ((tn - cur.time : ℤ) : ℚ) / 3600000 > 12 then 12
           else ((tn - cur.time : ℤ) : ℚ) / 3600000) := by
  have hq : (0 : ℚ) < ((tn - cur.time : ℤ) : ℚ) / 3600000 := by
    apply div_pos _ (by norm_num)
    exact_mod_cast hpos
  simp only [fixIntervalHours, Option.any_none, Bool.false_eq_true,
    if_false, if_neg (not_le.mpr hq)]

/-- With no cutoff, the final fix is credited a fixed 6 hours. -/
theorem fixIntervalHours_none_last (cur : Row) :
    fixIntervalHours none cur none
      = addHours {} (classify1min cur.usaWind) 6 := by
  have h6 : ((cur.time + 6 * MS_PER_HOUR - cur.time : ℤ) : ℚ) / 3600000
      = 6 := by
    have : cur.time + 6 * MS_PER_HOUR - cur.time = 21600000 := by
      rw [MS_PER_HOUR]; ring
    rw [this]; norm_num
  simp only [fixIntervalHours, Option.any_none, Bool.false_eq_true,
    if_false, h6]
  norm_num

/-- An interval starting after the cutoff limit is dropped entirely. -/
theorem fixIntervalHours_after_limit (L : ℤ) (cur : Row)
    (nextT : Option ℤ) (h : cur.time > L) :
    fixIntervalHours (some L) cur nextT = {} := by
  simp only [fixIntervalHours, Option.any_some, if_pos (decide_eq_true h)]

/-- An interval crossing the cutoff limit is truncated at the limit. -/
theorem fixIntervalHours_truncated (L : ℤ) (cur : Row) (tn : ℤ)
    (h1 : cur.time ≤ L) (h2 : tn > L) (hpos : 0 < L - cur.time)
    (h12 : ((L - cur.time : ℤ) : ℚ) / 3600000 ≤ 12) :
    fixIntervalHours (some L) cur (some tn)
      = addHours {} (classify1min cur.usaWind)
          (((L - cur.time : ℤ) : ℚ) / 3600000) := by
  have hq : (0 : ℚ) < ((L - cur.time : ℤ) : ℚ) / 3600000 := by
    apply div_pos _ (by norm_num)
    exact_mod_cast hpos
  simp only [fixIntervalHours]
  rw [if_neg, if_pos h2, if_neg (not_le.mpr hq), if_neg (not_lt.mpr h12)]
  simp [h1, not_lt.mpr h1]

/-- **C6**: in `computeCategoryDays` each fix is credited the duration to
the next fix of the storm (clipped at 12 hours: a 30-hour gap contributes
exactly 12 hours), the final fix a fixed 6 hours, and under a cutoff an
interval starting after end-of-day UTC on the cutoff's month/day within
the target year is dropped while one crossing that instant is truncated
there. -/
theorem C6_categoryDays_interval_rules :
    (∀ (t : ℤ) (id : String),
      computeCategoryDays
        [(id, [{ season := 2000, time := t, usaWind := some 50 },
               { season := 2000, time := t + 30 * 3600000,
                 usaWind := some 100 }])] 2000 none
        = { STS := 1 / 2, TY := 3 / 10 }) ∧
    (∀ (year : ℤ) (c : ℤ) (r : Row) (id : String), year ≠ 0 →
      r.season = year →
      r.time > utcMs year (getUTCMonth c) (getUTCDate c) 23 59 59 999 →
      computeCategoryDays [(id, [r])] year (some c) = {}) ∧
    (∀ (year : ℤ) (c : ℤ) (t1 t2 : ℤ) (id : String), year ≠ 0 →
      t1 ≤ utcMs year (getUTCMonth c) (getUTCDate c) 23 59 59 999 →
      t2 > utcMs year (getUTCMonth c) (getUTCDate c) 23 59 59 999 →
      0 < utcMs year (getUTCMonth c) (getUTCDate c) 23 59 59 999 - t1 →
      ((utcMs year (getUTCMonth c) (getUTCDate c) 23 59 59 999 - t1 : ℤ) :
        ℚ) / 3600000 ≤ 12 →
      computeCategoryDays
        [(id, [{ season := year, time := t1, usaWind := some 135 },
               { season := year, time := t2 }])] year (some c)
        = { STY := round1
              (((utcMs year (getUTCMonth c) (getUTCDate c) 23 59 59 999
                 - t1 : ℤ) : ℚ) / 3600000 / 24) }) := by
  refine ⟨fun t id => ?_, fun year c r id hy hs ht => ?_,
    fun year c t1 t2 id hy h1 h2 hpos h12 => ?_⟩
  · simp only [computeCategoryDays, List.foldl_cons, List.foldl_nil,
      Option.map_none', Option.map_some', stormHours, List.head?]
    rw [if_neg (by simp)]
    rw [fixIntervalHours_none_next
        ({ season := 2000, time := t, usaWind := some 50 } : Row)
        (t + 30 * 3600000)
        (by show (0 : ℤ) < t + 30 * 3600000 - t; omega),
      fixIntervalHours_none_last]
    have harith : ((t + 30 * 3600000 -
        ({ season := 2000, time := t, usaWind := some 50 } : Row).time :
        ℤ) : ℚ) / 3600000 = 30 := by
      show ((t + 30 * 3600000 - t : ℤ) : ℚ) / 3600000 = 30
      have h : t + 30 * 3600000 - t = 108000000 := by ring
      rw [h]; norm_num
    rw [harith]
    norm_num
    decide
  · simp only [computeCategoryDays, List.foldl_cons, List.foldl_nil,
      stormHours, Option.map_some', Option.map_none', List.head?]
    rw [if_neg (by simp [hs]), fixIntervalHours_after_limit _ _ _ ht]
    decide
  · simp only [computeCategoryDays, List.foldl_cons, List.foldl_nil,
      stormHours, Option.map_some', Option.map_none', List.head?]
    rw [if_neg (by simp)]
    rw [fixIntervalHours_truncated
        (utcMs year (getUTCMonth c) (getUTCDate c) 23 59 59 999)
        ({ season := year, time := t1, usaWind := some 135 } : Row) t2
        h1 h2 hpos h12,
      fixIntervalHours_after_limit
        (utcMs year (getUTCMonth c) (getUTCDate c) 23 59 59 999)
        ({ season := year, time := t2 } : Row) none h2]
    have hcl : classify1min (some 135) = Cat.STY := by decide
    rw [hcl]
    simp only [addHours, addCatHours, CatHours.mk.injEq]
    norm_num
    decide

/-! # Claim C7: leap-day exclusion and the (Feb, 29) axis -/

/-- `normDayIndexUTC` is `none` exactly on a leap-year February 29. -/
theorem normDayIndexUTC_eq_none_iff (t : ℤ) :
    normDayIndexUTC t = none ↔ isFeb29Leap t = true := by
  rw [normDayIndexUTC, isFeb29Leap]
  split_ifs with hl hfeb hafter <;>
    simp_all

/-- A row sitting on a leap-year February 29 never updates a daily
bucket. -/
theorem dailyBucketStep_of_feb29 (y cY : ℤ) (n : ℕ) (acc : List ℚ)
    (r : Row) (h : normDayIndexUTC r.time = none) :
    dailyBucketStep y cY n acc r = acc := by
  rw [dailyBucketStep]
  split_ifs <;> try rfl
  cases hw : round5 r.usaWind with
  | none => rfl
  | some w =>
    simp only []
    split_ifs <;> try rfl
    rw [h]

/-- Dropping elements on which the step is the identity does not change a
fold. -/
theorem foldl_filter_id {α β : Type} (l : List α) (p : α → Bool)
    (f : β → α → β)
    (h : ∀ (b : β) (x : α), x ∈ l → p x = false → f b x = b) :
    ∀ init : β, (l.filter p).foldl f init = l.foldl f init := by
  induction l with
  | nil => intro _; rfl
  | cons x xs ih =>
    intro init
    have hx : ∀ (b : β) (z : α), z ∈ xs → p z = false → f b z = b :=
      fun b z hz => h b z (List.mem_cons_of_mem x hz)
    rw [List.filter_cons]
    cases hp : p x with
    | true =>
      simp only [hp, if_true]
      rw [List.foldl_cons, List.foldl_cons, ih hx]
    | false =>
      simp only [hp, Bool.false_eq_true, if_false]
      rw [List.foldl_cons, h init x (List.mem_cons_self x xs) hp, ih hx]

/-- The per-year daily buckets ignore leap-year February 29 fixes. -/
theorem dailyBucketsYear_filter_feb29 (rows : List Row) (y cY : ℤ)
    (n : ℕ) :
    dailyBucketsYear (rows.filter (fun r => !isFeb29Leap r.time)) y cY n
      = dailyBucketsYear rows y cY n := by
  rw [dailyBucketsYear, dailyBucketsYear]
  exact foldl_filter_id rows _ _
    (fun b r _ hp => dailyBucketStep_of_feb29 y cY n b r
      ((normDayIndexUTC_eq_none_iff r.time).mpr (by
        cases hf : isFeb29Leap r.time
        · rw [hf] at hp; simp at hp
        · rfl)))
    (List.replicate n 0)

/-- `dailyBucketStep` preserves the bucket-list length. -/
theorem dailyBucketStep_length (y cY : ℤ) (n : ℕ) (acc : List ℚ)
    (r : Row) :
    (dailyBucketStep y cY n acc r).length = acc.length := by
  rw [dailyBucketStep]
  split_ifs <;> try rfl
  cases hw : round5 r.usaWind with
  | none => rfl
  | some w =>
    simp only []
    split_ifs <;> try rfl
    cases hni : normDayIndexUTC r.time with
    | none => rfl
    | some ni =>
      simp only []
      split_ifs <;> simp [List.length_set]

/-- Folding `dailyBucketStep` preserves the length. -/
theorem dailyBuckets_foldl_length (y cY : ℤ) (n : ℕ) :
    ∀ (rows : List Row) (acc : List ℚ),
      (rows.foldl (dailyBucketStep y cY n) acc).length = acc.length := by
  intro rows
  induction rows with
  | nil => intro _; rfl
  | cons r rs ih =>
    intro acc
    rw [List.foldl_cons, ih, dailyBucketStep_length]

/-- Folding `dailyClimoStep` preserves the `sumDaily` length when it
starts at `n`. -/
theorem dailyClimoStep_foldl_length (rows : List Row) (m d : ℤ) (n : ℕ) :
    ∀ (l : List ℤ) (st : List ℚ × ℤ), st.1.length = n →
      ((l.foldl (dailyClimoStep rows m d n) st).1).length = n := by
  intro l
  induction l with
  | nil => intro st h; exact h
  | cons y ys ih =>
    intro st h
    rw [List.foldl_cons]
    refine ih _ ?_
    show (st.1.zipWith (· + ·) (dailyBucketsYear rows y _ n)).length = n
    rw [List.length_zipWith, dailyBucketsYear, dailyBuckets_foldl_length,
      List.length_replicate, h, min_self]

/-- **C7**: the daily-climatology axis for cutoff (Feb, 29) has length
exactly 60 (day 60 of the non-leap 365-slot axis), and no leap-year
February 29 fix contributes to any daily bucket: removing all such fixes
leaves every output of `computeACEDailyClimo` unchanged. -/
theorem C7_feb29_axis_and_exclusion :
    normLengthToMonthDay 1 29 = 60 ∧
    (∀ (rows : List Row) (sy ey : ℤ),
      (computeACEDailyClimo rows 1 29 sy ey).avgDaily.length = 60) ∧
    (∀ (rows : List Row) (m d sy ey : ℤ),
      computeACEDailyClimo rows m d sy ey
        = computeACEDailyClimo
            (rows.filter (fun r => !isFeb29Leap r.time)) m d sy ey) := by
  refine ⟨by decide, fun rows sy ey => ?_, fun rows m d sy ey => ?_⟩
  · simp only [computeACEDailyClimo]
    rw [List.length_map,
      dailyClimoStep_foldl_length rows 1 29 ((normLengthToMonthDay 1 29).toNat)
        (intRange sy ey) _ (List.length_replicate _ _)]
    decide
  · have hstep : dailyClimoStep
        (rows.filter (fun r => !isFeb29Leap r.time)) m d
        ((normLengthToMonthDay m d).toNat)
        = dailyClimoStep rows m d ((normLengthToMonthDay m d).toNat) := by
      funext st y
      rw [dailyClimoStep, dailyClimoStep, dailyBucketsYear_filter_feb29]
    simp only [computeACEDailyClimo]
    rw [hstep]

/-! # Claim C4: invest exclusion -/

/-- Dropping elements that a `filterMap` maps to `none` does not change
it. -/
theorem filterMap_filter_id {α β : Type} (l : List α) (p : α → Bool)
    (f : α → Option β) (h : ∀ x ∈ l, p x = false → f x = none) :
    (l.filter p).filterMap f = l.filterMap f := by
  induction l with
  | nil => rfl
  | cons x xs ih =>
    have hx : ∀ z ∈ xs, p z = false → f z = none :=
      fun z hz => h z (List.mem_cons_of_mem x hz)
    rw [List.filter_cons]
    cases hp : p x with
    | true => rw [if_pos rfl, List.filterMap_cons, List.filterMap_cons]
              cases f x <;> simp [ih hx]
    | false =>
      rw [List.filterMap_cons, h x (List.mem_cons_self x xs) hp]
      simp only [Bool.false_eq_true, if_false]
      exact ih hx

/-- Every storm the bulletin fetcher returns carries the probed number:
`1 ≤ num ≤ max`. -/
theorem fetchActiveBDecks_num_range
    (remote : ℕ → Option (List BPoint)) (year : ℤ) (mx : ℕ) :
    ∀ s ∈ fetchActiveBDecks remote year mx,
      1 ≤ s.num ∧ s.num ≤ (mx : ℤ) := by
  intro s hs
  rw [fetchActiveBDecks] at hs
  rw [List.mem_insertionSort] at hs
  obtain ⟨n, hn, hf⟩ := List.mem_filterMap.mp hs
  obtain ⟨i, hi, rfl⟩ := List.mem_map.mp hn
  rw [List.mem_range] at hi
  cases hr : remote (i + 1) with
  | none => rw [hr] at hf; exact absurd hf (by simp)
  | some pts =>
    rw [hr] at hf
    simp only [] at hf
    split_ifs at hf with hlen
    · cases hf
      constructor
      · show (1 : ℤ) ≤ ((i + 1 : ℕ) : ℤ)
        exact_mod_cast Nat.succ_le_succ (Nat.zero_le i)
      · show ((i + 1 : ℕ) : ℤ) ≤ (mx : ℤ)
        exact_mod_cast Nat.succ_le_of_lt hi

/-- **C4**: invest-numbered bulletin storms (90-99) reach no route
output. The fetcher only probes numbers `1..max`, and every route
(including the unfiltered individual-track route) calls it with
`max = 60`, so an invest-numbered storm can never appear among the
fetched storms; the remaining bulletin consumers (`bdeckToStormMap`,
monthly/YTD/daily ACE, `/current/bdecks`) additionally filter invests
explicitly, so their outputs are unchanged when invest storms are
removed from an arbitrary storm list. -/
theorem C4_invest_storms_excluded :
    (∀ (remote : ℕ → Option (List BPoint)) (year : ℤ),
      ∀ s ∈ fetchActiveBDecks remote year 60, isInvest s.num = false) ∧
    (∀ (remote : ℕ → Option (List BPoint)) (year : ℤ) (id : String)
        (pts : List BPoint),
      trackRouteBDeck (fetchActiveBDecks remote year 60) id = some pts →
      ∃ s ∈ fetchActiveBDecks remote year 60,
        isInvest s.num = false ∧ s.points = pts) ∧
    (∀ (bstorms : List BStorm) (cutoff : Option ℤ) (cd ed : ℤ),
      bdeckToStormMap bstorms
        = bdeckToStormMap (bstorms.filter (fun s => !isInvest s.num)) ∧
      monthlyAceFromBDecks bstorms cutoff
        = monthlyAceFromBDecks (bstorms.filter (fun s => !isInvest s.num))
            cutoff ∧
      aceYTDFromBDecks bstorms cd
        = aceYTDFromBDecks (bstorms.filter (fun s => !isInvest s.num)) cd ∧
      dailyFromBDecks bstorms ed
        = dailyFromBDecks (bstorms.filter (fun s => !isInvest s.num)) ed ∧
      currentBdecksAces bstorms
        = currentBdecksAces (bstorms.filter (fun s => !isInvest s.num))) := by
  have hnoinv : ∀ (remote : ℕ → Option (List BPoint)) (year : ℤ),
      ∀ s ∈ fetchActiveBDecks remote year 60, isInvest s.num = false := by
    intro remote year s hs
    obtain ⟨h1, h60⟩ := fetchActiveBDecks_num_range remote year 60 s hs
    have : ¬ (90 ≤ s.num ∧ s.num ≤ 99) := by omega
    simpa [isInvest] using this
  refine ⟨hnoinv, fun remote year id pts htrack => ?_,
    fun bstorms cutoff cd ed => ?_⟩
  · obtain ⟨s, hfind, hpts⟩ := Option.map_eq_some'.mp htrack
    have hmem := List.mem_of_find?_eq_some hfind
    exact ⟨s, hmem, hnoinv remote year s hmem, hpts⟩
  · have hinv : ∀ (s : BStorm),
        (!isInvest s.num) = false → isInvest s.num = true := by
      intro s h
      cases hI : isInvest s.num
      · rw [hI] at h; exact absurd h (by simp)
      · rfl
    refine ⟨?_, ?_, ?_, ?_, ?_⟩
    · rw [bdeckToStormMap, bdeckToStormMap,
        filterMap_filter_id _ _ _ (fun s _ hp => by rw [if_pos (hinv s hp)])]
    · rw [monthlyAceFromBDecks, monthlyAceFromBDecks,
        foldl_filter_id _ _ _ (fun b s _ hp => by
          show (if isInvest s.num = true then b else _) = b
          rw [if_pos (hinv s hp)])]
    · rw [aceYTDFromBDecks, aceYTDFromBDecks,
        foldl_filter_id _ _ _ (fun b s _ hp => by
          show (if isInvest s.num = true then b else _) = b
          rw [if_pos (hinv s hp)])]
    · rw [dailyFromBDecks, dailyFromBDecks,
        foldl_filter_id _ _ _ (fun b s _ hp => by
          show (if isInvest s.num = true then b else _) = b
          rw [if_pos (hinv s hp)])]
    · rw [currentBdecksAces, currentBdecksAces, List.filter_filter]
      simp only [Bool.and_self]

/-! # Claim C8: strict per-storm time ordering -/

/-- The de-duplicated id is never the empty string. -/
theorem dedupId_ne_empty (r : Row) : dedupId r ≠ "" := by
  rw [dedupId]
  split_ifs with h
  · intro he
    have hd := congrArg String.data he
    rw [String.data_append, String.data_append] at hd
    rcases List.append_eq_nil.mp hd with ⟨h1, h2⟩
    rcases List.append_eq_nil.mp h1 with ⟨h3, h4⟩
    exact absurd h4 (by decide)
  · exact h

/-- Invariant of the dedup fold: every kept fix's `(id, time)` key is in
`seen`, kept ids are nonempty, and no two kept fixes share an
`(stormId, time)` key. -/
theorem dedupStep_foldl_invariant :
    ∀ (rows : List Row) (st : List (String × ℤ) × List Row),
      (∀ r ∈ st.2, (r.stormId, r.time) ∈ st.1 ∧ r.stormId ≠ "") →
      st.2.Pairwise
        (fun a b => ¬(a.stormId = b.stormId ∧ a.time = b.time)) →
      (∀ r ∈ (rows.foldl dedupStep st).2,
        (r.stormId, r.time) ∈ (rows.foldl dedupStep st).1 ∧
          r.stormId ≠ "") ∧
      (rows.foldl dedupStep st).2.Pairwise
        (fun a b => ¬(a.stormId = b.stormId ∧ a.time = b.time)) := by
  intro rows
  induction rows with
  | nil => intro st h1 h2; exact ⟨h1, h2⟩
  | cons r rs ih =>
    intro st h1 h2
    rw [List.foldl_cons]
    by_cases hseen : (dedupId r, r.time) ∈ st.1
    · rw [show dedupStep st r = st from if_pos hseen]
      exact ih st h1 h2
    · have hst : dedupStep st r
          = ((dedupId r, r.time) :: st.1,
             st.2 ++ [{ r with stormId := dedupId r }]) := if_neg hseen
      rw [hst]
      refine ih _ (fun x hx => ?_) ?_
      · rcases List.mem_append.mp hx with hx | hx
        · exact ⟨List.mem_cons_of_mem _ (h1 x hx).1, (h1 x hx).2⟩
        · rcases List.mem_singleton.mp hx with rfl
          exact ⟨List.mem_cons_self _ _, dedupId_ne_empty r⟩
      · rw [List.pairwise_append]
        refine ⟨h2, List.pairwise_singleton _ _, fun a ha b hb => ?_⟩
        rcases List.mem_singleton.mp hb with rfl
        rintro ⟨hid, htime⟩
        exact hseen (by
          have := (h1 a ha).1
          rw [hid] at this
          show (dedupId r, r.time) ∈ st.1
          rw [← htime]
          exact this)

/-- The dedup pass yields pairwise-distinct `(stormId, time)` keys and
nonempty ids. -/
theorem dedupFixes_sound (rows : List Row) :
    (dedupFixes rows).Pairwise
      (fun a b => ¬(a.stormId = b.stormId ∧ a.time = b.time)) ∧
    ∀ r ∈ dedupFixes rows, r.stormId ≠ "" := by
  have h := dedupStep_foldl_invariant rows ([], [])
    (fun r hr => absurd hr (List.not_mem_nil r)) List.Pairwise.nil
  exact ⟨h.2, fun r hr => (h.1 r hr).2⟩

/-- A list with pairwise-distinct times sorts into a strictly
time-increasing list. -/
theorem insertionSort_strict_of_time_ne (g : List Row)
    (htne : g.Pairwise (fun a b => a.time ≠ b.time)) :
    (List.insertionSort byTime g).Pairwise (fun a b => a.time < b.time) := by
  have hsorted : (List.insertionSort byTime g).Pairwise byTime :=
    List.sorted_insertionSort byTime g
  have hperm := List.perm_insertionSort byTime g
  have htne' : (List.insertionSort byTime g).Pairwise
      (fun a b => a.time ≠ b.time) :=
    (hperm.pairwise_iff (fun h => Ne.symm h)).mpr htne
  exact (hsorted.and htne').imp (fun hab => lt_of_le_of_ne hab.1 hab.2)

/-- A doubly-filtered sub-collection whose members all share one storm id
has pairwise-distinct times and therefore sorts strictly. -/
theorem group_strict_of_shared_id (l : List Row) (p q : Row → Bool)
    (k : String)
    (hpw : l.Pairwise
      (fun a b => ¬(a.stormId = b.stormId ∧ a.time = b.time)))
    (hkey : ∀ r ∈ (l.filter p).filter q, r.stormId = k) :
    (List.insertionSort byTime ((l.filter p).filter q)).Pairwise
      (fun a b => a.time < b.time) := by
  apply insertionSort_strict_of_time_ne
  have hpw2 : ((l.filter p).filter q).Pairwise
      (fun a b => ¬(a.stormId = b.stormId ∧ a.time = b.time)) :=
    List.Pairwise.filter q (List.Pairwise.filter p hpw)
  refine List.Pairwise.imp_of_mem ?_ hpw2
  intro a b ha hb hR ht
  exact hR ⟨(hkey a ha).trans (hkey b hb).symm, ht⟩

/-- **C8**: after `loadIBTrACS` identity assignment and dedup
(`assignStormIds`) and `groupByStorm`, every storm's fix list is sorted
strictly ascending by time — no two fixes of one storm share an instant,
because exact `(id, time)` duplicates were dropped. -/
theorem C8_groups_strictly_sorted :
    ∀ (rows : List Row) (year : Option ℤ),
      (groupByStorm (assignStormIds rows) year).Forall
        (fun e => e.2.Pairwise (fun a b => a.time < b.time)) := by
  intro rows year
  rw [List.forall_iff_forall_mem]
  intro e he
  obtain ⟨hpw, hne⟩ := dedupFixes_sound (canonicalize rows)
  rw [groupByStorm] at he
  obtain ⟨k, hk, rfl⟩ := List.mem_map.mp he
  simp only []
  show (List.insertionSort byTime _).Pairwise (fun a b => a.time < b.time)
  apply group_strict_of_shared_id (assignStormIds rows) _ _ k
  · exact hpw
  · intro r hr
    have hq := List.of_mem_filter hr
    have hk' : groupKey r = k := of_decide_eq_true hq
    have hrin : r ∈ assignStormIds rows :=
      List.mem_of_mem_filter (List.mem_of_mem_filter hr)
    have hid : r.stormId ≠ "" := hne r hrin
    rw [← hk', groupKey, if_neg hid]

/-! # Claim C5: gap segmentation of unnamed storms -/

theorem getUTCHours_bounds (t : ℤ) :
    0 ≤ getUTCHours t ∧ getUTCHours t < 24 := by
  unfold getUTCHours msOfDay MS_PER_DAY MS_PER_HOUR
  omega

theorem getUTCHours_shift25 (t : ℤ) :
    getUTCHours (t + 90000000) ≠ getUTCHours t := by
  unfold getUTCHours msOfDay MS_PER_DAY MS_PER_HOUR
  omega

theorem digitChar_injOn : ∀ a ∈ List.range 10, ∀ b ∈ List.range 10,
    Nat.digitChar a = Nat.digitChar b → a = b := by decide

theorem formatYMDH_ne_of_hours_ne (t t' : ℤ)
    (h : getUTCHours t ≠ getUTCHours t') :
    formatYMDH t ≠ formatYMDH t' := by
  intro he
  have hd : pad4Chars (getUTCFullYear t) ++ pad2Chars (getUTCMonth t + 1) ++
      pad2Chars (getUTCDate t) ++ pad2Chars (getUTCHours t)
      = pad4Chars (getUTCFullYear t') ++ pad2Chars (getUTCMonth t' + 1) ++
        pad2Chars (getUTCDate t') ++ pad2Chars (getUTCHours t') :=
    congrArg String.data he
  simp only [pad4Chars, pad2Chars, List.cons_append, List.nil_append,
    List.cons.injEq, and_true] at hd
  obtain ⟨-, -, -, -, -, -, -, -, h1, h2⟩ := hd
  have e1 : (getUTCHours t).toNat / 10 % 10
      = (getUTCHours t').toNat / 10 % 10 :=
    digitChar_injOn _ (List.mem_range.mpr (Nat.mod_lt _ (by norm_num)))
      _ (List.mem_range.mpr (Nat.mod_lt _ (by norm_num))) h1
  have e2 : (getUTCHours t).toNat % 10 = (getUTCHours t').toNat % 10 :=
    digitChar_injOn _ (List.mem_range.mpr (Nat.mod_lt _ (by norm_num)))
      _ (List.mem_range.mpr (Nat.mod_lt _ (by norm_num))) h2
  have b1 := getUTCHours_bounds t
  have b2 := getUTCHours_bounds t'
  omega

theorem digitChar_not_ws : ∀ a ∈ List.range 10,
    (Nat.digitChar a).isWhitespace = false := by decide

theorem dropWhile_eq_self_of {α : Type} (p : α → Bool) (l : List α)
    (h : ∀ c ∈ l, p c = false) : l.dropWhile p = l := by
  cases l with
  | nil => rfl
  | cons x xs =>
    rw [List.dropWhile_cons, h x (List.mem_cons_self x xs)]
    simp

theorem strTrim_eq_self (s : String)
    (h : ∀ c ∈ s.data, c.isWhitespace = false) : strTrim s = s := by
  rw [strTrim, dropWhile_eq_self_of _ _ h,
    dropWhile_eq_self_of _ _ (fun c hc => h c (List.mem_reverse.mp hc)),
    List.reverse_reverse]

theorem string_append_left_inj (p s1 s2 : String) (h : p ++ s1 = p ++ s2) :
    s1 = s2 := by
  have hd := congrArg String.data h
  rw [String.data_append, String.data_append] at hd
  have := List.append_cancel_left hd
  cases s1; cases s2; cases this; rfl

theorem formatYMDH_chars_not_ws (t : ℤ) :
    ∀ c ∈ (formatYMDH t).data, c.isWhitespace = false := by
  intro c hc
  have hc' : c ∈ pad4Chars (getUTCFullYear t) ++ pad2Chars (getUTCMonth t + 1) ++
      pad2Chars (getUTCDate t) ++ pad2Chars (getUTCHours t) := hc
  simp only [pad4Chars, pad2Chars, List.cons_append, List.nil_append,
    List.mem_cons, List.not_mem_nil, or_false] at hc'
  rcases hc' with rfl | rfl | rfl | rfl | rfl | rfl | rfl | rfl | rfl | rfl <;>
    exact digitChar_not_ws _ (List.mem_range.mpr (Nat.mod_lt _ (by norm_num)))

theorem segIdA_chars_not_ws (t : ℤ) :
    ∀ c ∈ ("UNNAMED_2024_" ++ formatYMDH t).data, c.isWhitespace = false := by
  intro c hc
  rw [String.data_append] at hc
  rcases List.mem_append.mp hc with hc | hc
  · have hp : ∀ ch ∈ "UNNAMED_2024_".data, ch.isWhitespace = false := by
      decide
    exact hp c hc
  · exact formatYMDH_chars_not_ws t c hc

theorem segIdA_ne_empty (t : ℤ) : ("UNNAMED_2024_" ++ formatYMDH t) ≠ "" := by
  intro he
  have hd := congrArg String.data he
  rw [String.data_append] at hd
  rcases List.append_eq_nil.mp hd with ⟨h1, -⟩
  exact absurd h1 (by decide)


theorem insertionSort_pair (a b : Row) (h : byTime a b) :
    List.insertionSort byTime [a, b] = [a, b] := by
  simp only [List.insertionSort, List.orderedInsert]
  rw [if_pos h]

theorem canonicalIdForGroup_unnamed (l : List Row) :
    canonicalIdForGroup "UNNAMED" l = none := by
  rw [canonicalIdForGroup, if_neg (fun hh => hh rfl)]

set_option maxHeartbeats 1000000 in
theorem canonicalize_two_far (t : ℤ) :
    canonicalize
      [({ season := 2024, time := t } : Row),
       ({ season := 2024, time := t + 90000000 } : Row)]
    = [({ season := 2024, time := t,
          stormId := "UNNAMED_2024_" ++ formatYMDH t } : Row),
       ({ season := 2024, time := t + 90000000,
          stormId := "UNNAMED_2024_" ++ formatYMDH (t + 90000000) } : Row)] := by
  have hkeys : List.map nameSeasonKey
      [({ season := 2024, time := t } : Row),
       ({ season := 2024, time := t + 90000000 } : Row)]
      = ["UNNAMED_2024", "UNNAMED_2024"] := rfl
  have hfd : firstDedup ["UNNAMED_2024", "UNNAMED_2024"]
      = ["UNNAMED_2024"] := rfl
  have hfil : List.filter (fun r => nameSeasonKey r = "UNNAMED_2024")
      [({ season := 2024, time := t } : Row),
       ({ season := 2024, time := t + 90000000 } : Row)]
      = [({ season := 2024, time := t } : Row),
         ({ season := 2024, time := t + 90000000 } : Row)] := rfl
  have hsort := insertionSort_pair
    ({ season := 2024, time := t } : Row)
    ({ season := 2024, time := t + 90000000 } : Row)
    (by show t ≤ t + 90000000; omega)
  have hgap : ¬ ((((({ season := 2024, time := t + 90000000 } : Row)).time
      - (({ season := 2024, time := t } : Row)).time : ℤ) : ℚ) / 3600000 ≤ 24) := by
    show ¬ (((t + 90000000 - t : ℤ) : ℚ) / 3600000 ≤ 24)
    have h9 : t + 90000000 - t = (90000000 : ℤ) := by ring
    rw [h9]
    norm_num
  have hsplit : splitByGap
      [({ season := 2024, time := t } : Row),
       ({ season := 2024, time := t + 90000000 } : Row)]
      = [[({ season := 2024, time := t } : Row)],
         [({ season := 2024, time := t + 90000000 } : Row)]] := by
    simp only [splitByGap, splitByGapGo]
    rw [if_neg hgap]
    rfl
  simp only [canonicalize, hkeys, hfd, List.foldl_cons, List.foldl_nil,
    hfil, hsort, canonicalIdForGroup_unnamed, hsplit]
  simp only [segAssign, List.find?, List.head?, List.map, List.flatten,
    List.nil_append, List.append_nil]
  rfl

theorem dedupId_of_segIdA (t : ℤ) (r : Row)
    (hid : r.stormId = "UNNAMED_2024_" ++ formatYMDH t) :
    dedupId r = "UNNAMED_2024_" ++ formatYMDH t := by
  rw [dedupId, hid, strTrim_eq_self _ (segIdA_chars_not_ws t),
    if_neg (segIdA_ne_empty t)]

set_option maxHeartbeats 1000000 in
theorem assignStormIds_far (t : ℤ) :
    (assignStormIds
      [({ season := 2024, time := t } : Row),
       ({ season := 2024, time := t + 90000000 } : Row)]).map (·.stormId)
    = ["UNNAMED_2024_" ++ formatYMDH t,
       "UNNAMED_2024_" ++ formatYMDH (t + 90000000)] := by
  rw [assignStormIds, canonicalize_two_far]
  rw [dedupFixes, List.foldl_cons, List.foldl_cons, List.foldl_nil]
  rw [show dedupStep ([], [])
      ({ season := 2024, time := t,
         stormId := "UNNAMED_2024_" ++ formatYMDH t } : Row)
    = ([("UNNAMED_2024_" ++ formatYMDH t, t)],
       [({ season := 2024, time := t,
           stormId := "UNNAMED_2024_" ++ formatYMDH t } : Row)]) from by
    rw [dedupStep]
    simp only [dedupId_of_segIdA t
      ({ season := 2024, time := t,
         stormId := "UNNAMED_2024_" ++ formatYMDH t } : Row) rfl]
    rw [if_neg (List.not_mem_nil _)]
    rfl]
  rw [show dedupStep
      ([("UNNAMED_2024_" ++ formatYMDH t, t)],
       [({ season := 2024, time := t,
           stormId := "UNNAMED_2024_" ++ formatYMDH t } : Row)])
      ({ season := 2024, time := t + 90000000,
         stormId := "UNNAMED_2024_" ++ formatYMDH (t + 90000000) } : Row)
    = ([("UNNAMED_2024_" ++ formatYMDH (t + 90000000), t + 90000000),
        ("UNNAMED_2024_" ++ formatYMDH t, t)],
       [({ season := 2024, time := t,
           stormId := "UNNAMED_2024_" ++ formatYMDH t } : Row),
        ({ season := 2024, time := t + 90000000,
           stormId := "UNNAMED_2024_" ++ formatYMDH (t + 90000000) } : Row)]) from by
    rw [dedupStep]
    simp only [dedupId_of_segIdA (t + 90000000)
      ({ season := 2024, time := t + 90000000,
         stormId := "UNNAMED_2024_" ++ formatYMDH (t + 90000000) } : Row) rfl]
    rw [if_neg (by
      rw [List.mem_singleton, Prod.mk.injEq]
      rintro ⟨-, hteq⟩
      omega)]
    rfl]
  rfl

set_option maxHeartbeats 1000000 in
theorem canonicalize_two_near (t : ℤ) :
    canonicalize
      [({ season := 2024, time := t } : Row),
       ({ season := 2024, time := t + 82800000 } : Row)]
    = [({ season := 2024, time := t,
          stormId := "UNNAMED_2024_" ++ formatYMDH t } : Row),
       ({ season := 2024, time := t + 82800000,
          stormId := "UNNAMED_2024_" ++ formatYMDH t } : Row)] := by
  have hkeys : List.map nameSeasonKey
      [({ season := 2024, time := t } : Row),
       ({ season := 2024, time := t + 82800000 } : Row)]
      = ["UNNAMED_2024", "UNNAMED_2024"] := rfl
  have hfd : firstDedup ["UNNAMED_2024", "UNNAMED_2024"]
      = ["UNNAMED_2024"] := rfl
  have hfil : List.filter (fun r => nameSeasonKey r = "UNNAMED_2024")
      [({ season := 2024, time := t } : Row),
       ({ season := 2024, time := t + 82800000 } : Row)]
      = [({ season := 2024, time := t } : Row),
         ({ season := 2024, time := t + 82800000 } : Row)] := rfl
  have hsort := insertionSort_pair
    ({ season := 2024, time := t } : Row)
    ({ season := 2024, time := t + 82800000 } : Row)
    (by show t ≤ t + 82800000; omega)
  have hgap : (((({ season := 2024, time := t + 82800000 } : Row)).time
      - (({ season := 2024, time := t } : Row)).time : ℤ) : ℚ) / 3600000 ≤ 24 := by
    show ((t + 82800000 - t : ℤ) : ℚ) / 3600000 ≤ 24
    have h8 : t + 82800000 - t = (82800000 : ℤ) := by ring
    rw [h8]
    norm_num
  have hsplit : splitByGap
      [({ season := 2024, time := t } : Row),
       ({ season := 2024, time := t + 82800000 } : Row)]
      = [[({ season := 2024, time := t } : Row),
          ({ season := 2024, time := t + 82800000 } : Row)]] := by
    simp only [splitByGap, splitByGapGo]
    rw [if_pos hgap]
    rfl
  simp only [canonicalize, hkeys, hfd, List.foldl_cons, List.foldl_nil,
    hfil, hsort, canonicalIdForGroup_unnamed, hsplit]
  simp only [segAssign, List.find?, List.head?, List.map, List.flatten,
    List.nil_append, List.append_nil]
  rfl

set_option maxHeartbeats 1000000 in
theorem assignStormIds_near (t : ℤ) :
    (assignStormIds
      [({ season := 2024, time := t } : Row),
       ({ season := 2024, time := t + 82800000 } : Row)]).map (·.stormId)
    = ["UNNAMED_2024_" ++ formatYMDH t,
       "UNNAMED_2024_" ++ formatYMDH t] := by
  rw [assignStormIds, canonicalize_two_near]
  rw [dedupFixes, List.foldl_cons, List.foldl_cons, List.foldl_nil]
  rw [show dedupStep ([], [])
      ({ season := 2024, time := t,
         stormId := "UNNAMED_2024_" ++ formatYMDH t } : Row)
    = ([("UNNAMED_2024_" ++ formatYMDH t, t)],
       [({ season := 2024, time := t,
           stormId := "UNNAMED_2024_" ++ formatYMDH t } : Row)]) from by
    rw [dedupStep]
    simp only [dedupId_of_segIdA t
      ({ season := 2024, time := t,
         stormId := "UNNAMED_2024_" ++ formatYMDH t } : Row) rfl]
    rw [if_neg (List.not_mem_nil _)]
    rfl]
  rw [show dedupStep
      ([("UNNAMED_2024_" ++ formatYMDH t, t)],
       [({ season := 2024, time := t,
           stormId := "UNNAMED_2024_" ++ formatYMDH t } : Row)])
      ({ season := 2024, time := t + 82800000,
         stormId := "UNNAMED_2024_" ++ formatYMDH t } : Row)
    = ([("UNNAMED_2024_" ++ formatYMDH t, t + 82800000),
        ("UNNAMED_2024_" ++ formatYMDH t, t)],
       [({ season := 2024, time := t,
           stormId := "UNNAMED_2024_" ++ formatYMDH t } : Row),
        ({ season := 2024, time := t + 82800000,
           stormId := "UNNAMED_2024_" ++ formatYMDH t } : Row)]) from by
    rw [dedupStep]
    simp only [dedupId_of_segIdA t
      ({ season := 2024, time := t + 82800000,
         stormId := "UNNAMED_2024_" ++ formatYMDH t } : Row) rfl]
    rw [if_neg (by
      rw [List.mem_singleton, Prod.mk.injEq]
      rintro ⟨-, hteq⟩
      omega)]
    rfl]
  rfl

/-- **C5**: for an unnamed same-season group with no external ids, the
time-sorted fixes are split into storm identities exactly at gaps of
more than 24 hours: two unnamed fixes 25 hours apart receive two
distinct stormIds (synthetic keys anchored at each segment's first
timestamp), and two unnamed fixes 23 hours apart share one stormId. -/
theorem C5_gap_segmentation :
    ∀ t : ℤ,
      ((assignStormIds
          [({ season := 2024, time := t } : Row),
           ({ season := 2024, time := t + 90000000 } : Row)]).map (·.stormId)
        = ["UNNAMED_2024_" ++ formatYMDH t,
           "UNNAMED_2024_" ++ formatYMDH (t + 90000000)] ∧
       "UNNAMED_2024_" ++ formatYMDH t
         ≠ "UNNAMED_2024_" ++ formatYMDH (t + 90000000)) ∧
      (assignStormIds
          [({ season := 2024, time := t } : Row),
           ({ season := 2024, time := t + 82800000 } : Row)]).map (·.stormId)
        = ["UNNAMED_2024_" ++ formatYMDH t,
           "UNNAMED_2024_" ++ formatYMDH t] := by
  intro t
  refine ⟨⟨assignStormIds_far t, fun he => ?_⟩, assignStormIds_near t⟩
  exact formatYMDH_ne_of_hours_ne t (t + 90000000)
    (Ne.symm (getUTCHours_shift25 t))
    (string_append_left_inj _ _ _ he)

end Spec2Proof
